import Mathlib

/-!
Verification development for the ad-hoc command (XEP-0050) session manager
specified for the SleekXMPP example repository.  The repository's only source
file, `src/examples/adhoc_user.py`, is client glue: its handlers and its
command-line entry point are embedded below directly from the source.  The
Command Session Store and Command Session Driver themselves live in the
external `xep_0050` plugin, which is not part of the given sources, so they
are modelled from the specification text (sections 3, 4.1, 4.2, 5 and 6 of
`spec.md`); every such definition carries a doc comment starting with
`Modelled from the spec:`.
-/

namespace Adhoc

/-- Severity of a diagnostic note attached to a session (spec section 3,
`notes`: ordered sequence of (severity, message) pairs; the source lists the
levels `info`, `warning`, `error` at `adhoc_user.py` lines 169-172). -/
inductive Severity
  | info
  | warning
  | error
deriving DecidableEq

/-- Modelled from the spec: session states, section 3 — `state` is one of
`{Pending, AwaitingResponse, Completed, Errored, Cancelled}`. -/
inductive SessionState
  | Pending
  | AwaitingResponse
  | Completed
  | Errored
  | Cancelled
deriving DecidableEq, Fintype

/-- One field of a data form, as built by `makeForm`/`addField`
(`adhoc_user.py` lines 107-109 and 150-153): a variable name, a field type,
a label and an optional value. -/
structure FormField where
  var : String
  ftype : String
  label : String
  value : Option String
deriving DecidableEq

/-- A data form (XEP-0004), the payload shape the example exchanges:
a form type (`form` or `submit`), a title and a list of fields. -/
structure Form where
  ftype : String
  title : String
  fields : List FormField
deriving DecidableEq

/-- Embedding of the lookup `form[ 'values' ][ k ]` (`adhoc_user.py` line
194): the value of the field whose `var` is `k`, with a missing value read
as the empty string. -/
def formValue (f : Form) (k : String) : String :=
  go f.fields
where
  go : List FormField → String
    | [] => ""
    | fld :: rest => if fld.var = k then fld.value.getD "" else go rest

/-- An application-level message emitted by a handler, as sent by
`send_message(mto=..., mbody=...)` (`adhoc_user.py` lines 195-196). -/
structure Message where
  mto : String
  mbody : String
deriving DecidableEq

/-- Modelled from the spec: outgoing protocol unit of the Stanza Transport,
section 6 — `send(targetAddress, sessionId, node, payload)`. -/
structure ProtocolUnit where
  target : String
  sessionId : Nat
  node : String
  payload : Option Form
deriving DecidableEq

/-- Modelled from the spec: the error information of a remote-signalled
protocol error (section 8 scenario: `condition="item-not-found"`; the source
reads `iq[ 'error' ][ 'condition' ]` and `iq[ 'error' ][ 'text' ]` at
`adhoc_user.py` lines 132-133). -/
structure ErrorInfo where
  condition : String
  text : String
deriving DecidableEq

/-- Modelled from the spec: a transport response, section 6 —
`onResponse(correlationId, status, payload)` with `status` in
`{Success, Error}`. -/
inductive Response
  | success (payload : Form)
  | failure (err : ErrorInfo)
deriving DecidableEq

/-- Modelled from the spec: the CommandSession record of section 3.
Handlers are stored as opaque handles of a type `H`; the driver receives
their meaning separately (a `HandlerInterp`), mirroring the spec's
caller-supplied callback slots.  `stepHandler` is the session's `next`
value, `payload` the data for the current step, `hasNext` and
`allowComplete` the advisory flags, `notes` the diagnostic pairs and
`custom` the open mapping of caller-defined data (modelled with string
values).  `fromAddr` embeds the well-known session value `session['from']`
(`adhoc_user.py` lines 162-163). -/
structure CommandSession (H : Type) where
  sessionId : Nat
  targetAddress : String
  node : String
  state : SessionState
  stepHandler : Option H
  errorHandler : Option H
  cancelHandler : Option H
  payload : Option Form
  hasNext : Bool
  allowComplete : Bool
  notes : List (Severity × String)
  custom : List (String × String)
  fromAddr : String
deriving DecidableEq

/-- Result of one step-handler invocation: the returned session (or nothing,
spec section 6 — `stepHandler(payload, session) -> session | none`) together
with the application messages the handler emitted as a side effect. -/
structure StepResult (H : Type) where
  ret : Option (CommandSession H)
  messages : List Message

/-- Modelled from the spec: the meaning of handler handles, section 6 —
the three callback slots exposed to application code: `stepHandler`,
`errorHandler` (which receives the response error and may mutate its session
view) and `cancelHandler`. -/
structure HandlerInterp (H : Type) where
  step : H → Form → CommandSession H → StepResult H
  onError : H → ErrorInfo → CommandSession H → CommandSession H
  onCancel : H → CommandSession H → CommandSession H

/-- Modelled from the spec: the Command Session Store, section 4.1 — a map
`sessionId -> CommandSession` with a fresh-id counter. -/
structure Store (H : Type) where
  sessions : List (Nat × CommandSession H)
  nextId : Nat

/-- Lookup in the underlying association list of a store. -/
def getS {H : Type} : List (Nat × CommandSession H) → Nat → Option (CommandSession H)
  | [], _ => none
  | q :: rest, sid => if q.1 = sid then some q.2 else getS rest sid

/-- Removal of every binding of a key from the underlying association list. -/
def removeS {H : Type} : List (Nat × CommandSession H) → Nat → List (Nat × CommandSession H)
  | [], _ => []
  | q :: rest, sid => if q.1 = sid then removeS rest sid else q :: removeS rest sid

/-- Replacement of the bindings of a key in the underlying association list. -/
def updateS {H : Type} : List (Nat × CommandSession H) → Nat → CommandSession H →
    List (Nat × CommandSession H)
  | [], _, _ => []
  | q :: rest, sid, x => if q.1 = sid then (sid, x) :: updateS rest sid x
                         else q :: updateS rest sid x

/-- Modelled from the spec: `get(sessionId) -> CommandSession?`, section 4.1
— returns the session or signals `NotFound` (here `none`). -/
def Store.get {H : Type} (st : Store H) (sid : Nat) : Option (CommandSession H) :=
  getS st.sessions sid

/-- Modelled from the spec: `remove(sessionId)`, section 4.1 — deletes the
session; idempotent, removing a non-existent id is a no-op. -/
def Store.remove {H : Type} (st : Store H) (sid : Nat) : Store H :=
  { st with sessions := removeS st.sessions sid }

/-- Replacement of the session stored under an id, used by the driver when a
session continues with new contents. -/
def Store.update {H : Type} (st : Store H) (sid : Nat) (x : CommandSession H) : Store H :=
  { st with sessions := updateS st.sessions sid x }

/-- Modelled from the spec: store-level error kinds, sections 4.1 and 7. -/
inductive StoreError
  | InvalidArgument
  | NotFound
  | InvalidTransition
deriving DecidableEq

/-- The handler slots supplied at session creation (spec section 4.1,
`initialHandlers`). -/
structure InitialHandlers (H : Type) where
  step : Option H
  onError : Option H
  onCancel : Option H

/-- Modelled from the spec: `create(node, targetAddress, initialHandlers) ->
sessionId`, section 4.1 — allocates a new session in `Pending` state with a
fresh unique `sessionId`, storing the supplied handlers and initial custom
data; fails with `InvalidArgument` if `node` or `targetAddress` is empty. -/
def Store.create {H : Type} (st : Store H) (node targetAddress : String)
    (hs : InitialHandlers H) (cust : List (String × String)) :
    Except StoreError (Store H × Nat) :=
  if node = "" then Except.error StoreError.InvalidArgument
  else if targetAddress = "" then Except.error StoreError.InvalidArgument
  else
    let ns : CommandSession H :=
      { sessionId := st.nextId, targetAddress := targetAddress, node := node,
        state := SessionState.Pending, stepHandler := hs.step,
        errorHandler := hs.onError, cancelHandler := hs.onCancel,
        payload := none, hasNext := false, allowComplete := false,
        notes := [], custom := cust, fromAddr := "" }
    Except.ok ({ sessions := (st.nextId, ns) :: st.sessions, nextId := st.nextId + 1 },
               st.nextId)

/-- Modelled from the spec: the permitted state-machine edges of section 4.2
(`Pending` to `AwaitingResponse`; `AwaitingResponse` to itself, `Completed`,
`Errored` or `Cancelled`). -/
def allowedEdge : SessionState → SessionState → Bool
  | SessionState.Pending, SessionState.AwaitingResponse => true
  | SessionState.AwaitingResponse, SessionState.AwaitingResponse => true
  | SessionState.AwaitingResponse, SessionState.Completed => true
  | SessionState.AwaitingResponse, SessionState.Errored => true
  | SessionState.AwaitingResponse, SessionState.Cancelled => true
  | _, _ => false

/-- Whether a state is terminal (spec section 4.2: `Completed`, `Errored`,
`Cancelled` are terminal). -/
def isTerminal : SessionState → Bool
  | SessionState.Completed => true
  | SessionState.Errored => true
  | SessionState.Cancelled => true
  | _ => false

/-- Which handler kinds a driver step invoked, recorded so that handler
invocation (or its absence, for discarded responses) is observable. -/
inductive Invoked
  | stepH
  | errorH
  | cancelH
deriving DecidableEq

/-- The observable outcome of one driver step: the new store, the protocol
units sent, the application messages the invoked handlers emitted, which
handlers ran, and the affected session's final value (present even when the
session was removed from the store, so its terminal state is visible). -/
structure StepOutcome (H : Type) where
  store : Store H
  sent : List ProtocolUnit
  messages : List Message
  invoked : List Invoked
  final : Option (CommandSession H)

/-- Outcome of a driver step that drops its input (spec section 4.2 step 1:
unknown session — signal `UnknownSession` and drop the response; also used
when no request is outstanding for the session, since a response or cancel
correlates only with an in-flight request). -/
def dropOutcome {H : Type} (st : Store H) : StepOutcome H :=
  { store := st, sent := [], messages := [], invoked := [], final := none }

/-- Modelled from the spec: steps 3-5 of the response cycle, section 4.2,
for a success response delivered to session `s` stored under `sid`.  The
step handler is invoked; returning nothing is normalised to the session with
`payload` and `next` cleared (step 3).  If the resulting `next` is set the
driver builds the next request from `payload`, clears `payload` (section 3:
cleared after being sent), keeps the session `AwaitingResponse` and sends
the request with the session's own id and node (step 4); otherwise the
session becomes `Completed` and is removed (step 5).  An absent step handler
means no further steps were expected (section 3) and completes likewise. -/
def processSuccess {H : Type} (I : HandlerInterp H) (st : Store H) (sid : Nat)
    (s : CommandSession H) (p : Form) : StepOutcome H :=
  match s.stepHandler with
  | none =>
      let f := { s with state := SessionState.Completed }
      { store := st.remove sid, sent := [], messages := [], invoked := [],
        final := some f }
  | some h =>
      let r0 := I.step h p s
      let s1 := match r0.ret with
        | some x => x
        | none => { s with payload := none, stepHandler := none }
      match s1.stepHandler with
      | some _ =>
          let f := { s1 with state := SessionState.AwaitingResponse, payload := none }
          { store := st.update sid f,
            sent := [{ target := s.targetAddress, sessionId := sid, node := s.node,
                       payload := s1.payload }],
            messages := r0.messages, invoked := [Invoked.stepH], final := some f }
      | none =>
          let f := { s1 with state := SessionState.Completed }
          { store := st.remove sid, sent := [], messages := r0.messages,
            invoked := [Invoked.stepH], final := some f }

/-- Modelled from the spec: step 2 of the response cycle, section 4.2 — on a
protocol-level error, invoke `errorHandler(response, session)` if set, then
remove the session and stop; with no `errorHandler` the session is still
terminated on error and silently discarded (the documented lenient
default). -/
def processFailure {H : Type} (I : HandlerInterp H) (st : Store H) (sid : Nat)
    (s : CommandSession H) (e : ErrorInfo) : StepOutcome H :=
  let s1 := match s.errorHandler with
    | some h => I.onError h e s
    | none => s
  let f := { s1 with state := SessionState.Errored }
  { store := st.remove sid, sent := [], messages := [],
    invoked := match s.errorHandler with
      | some _ => [Invoked.errorH]
      | none => [],
    final := some f }

/-- Modelled from the spec: one response cycle, section 4.2 — the session is
looked up by the response's correlation id; an unknown id is dropped
(step 1), and a response only correlates with a session that has a request
in flight, that is one in `AwaitingResponse` (sections 3 and 5: exactly one
outstanding request per session, stale responses are discarded). -/
def processResponse {H : Type} (I : HandlerInterp H) (st : Store H) (sid : Nat)
    (resp : Response) : StepOutcome H :=
  match Store.get st sid with
  | none => dropOutcome st
  | some s =>
      if s.state = SessionState.AwaitingResponse then
        match resp with
        | Response.success p => processSuccess I st sid s p
        | Response.failure e => processFailure I st sid s e
      else dropOutcome st

/-- Modelled from the spec: the initiator sends the first request of a
`Pending` session (section 4.2: `Pending` to `AwaitingResponse`); the
request carries the session's id, node and payload, and the payload is
cleared after being sent (section 3). -/
def processStart {H : Type} (st : Store H) (sid : Nat) : StepOutcome H :=
  match Store.get st sid with
  | none => dropOutcome st
  | some s =>
      if s.state = SessionState.Pending then
        let f := { s with state := SessionState.AwaitingResponse, payload := none }
        { store := st.update sid f,
          sent := [{ target := s.targetAddress, sessionId := sid, node := s.node,
                     payload := s.payload }],
          messages := [], invoked := [], final := some f }
      else dropOutcome st

/-- Modelled from the spec: explicit cancellation, sections 4.2 and 5 —
deliverable while the session is `AwaitingResponse`, it invokes the
`cancelHandler` if present, transitions the session directly to `Cancelled`
and removes it from the store. -/
def processCancel {H : Type} (I : HandlerInterp H) (st : Store H) (sid : Nat) :
    StepOutcome H :=
  match Store.get st sid with
  | none => dropOutcome st
  | some s =>
      if s.state = SessionState.AwaitingResponse then
        let s1 := match s.cancelHandler with
          | some h => I.onCancel h s
          | none => s
        let f := { s1 with state := SessionState.Cancelled }
        { store := st.remove sid, sent := [], messages := [],
          invoked := match s.cancelHandler with
            | some _ => [Invoked.cancelH]
            | none => [],
          final := some f }
      else dropOutcome st

/-- Modelled from the spec: the inputs the Session Driver reacts to —
starting a pending session, a transport response for a session id, or an
explicit cancel (sections 4.2, 5 and 6). -/
inductive Input
  | start (sid : Nat)
  | response (sid : Nat) (r : Response)
  | cancel (sid : Nat)

/-- The session id an input addresses. -/
def Input.sid : Input → Nat
  | Input.start sid => sid
  | Input.response sid _ => sid
  | Input.cancel sid => sid

/-- Modelled from the spec: the Command Session Driver's reaction to one
input, section 4.2 — dispatch to the start, response or cancel cycle. -/
def stepDriver {H : Type} (I : HandlerInterp H) (st : Store H) : Input → StepOutcome H
  | Input.start sid => processStart st sid
  | Input.response sid r => processResponse I st sid r
  | Input.cancel sid => processCancel I st sid

/-- Handles for the handlers appearing in `src/examples/adhoc_user.py`,
together with the two generic completion shapes the spec's step-3
equivalence speaks about. -/
inductive ExampleHandler
  | command_start
  | command_error
  | handle_command
  | handle_command_complete
  | hReturnNone
  | hReturnCleared
deriving DecidableEq

/-- Embedding of the submit form built by `CommandUserBot._command_start`
(`adhoc_user.py` lines 107-109): `makeForm(ftype='submit')` followed by
`addField(var='greeting', value=...)`. -/
def submitGreetingForm (g : String) : Form :=
  { ftype := "submit", title := "",
    fields := [{ var := "greeting", ftype := "", label := "", value := some g }] }

/-- Embedding of the form built by `CommandUserBot._handle_command`
(`adhoc_user.py` lines 150-153): `makeForm('form', 'Greeting')` with a
`text-single` field `greeting` labelled `Your greeting`. -/
def greetingForm : Form :=
  { ftype := "form", title := "Greeting",
    fields := [{ var := "greeting", ftype := "text-single",
                 label := "Your greeting", value := none }] }

/-- The meaning of the example's handlers, embedded from
`src/examples/adhoc_user.py`:
`_command_start` (lines 89-120) attaches a submit form built from the
session's `greeting` custom value as payload, sets `next` to `None` and
completes; `_handle_command` (lines 140-174) attaches the greeting form,
sets `next` to `_handle_command_complete` and `has_next` to `False`, and
returns the session; `_handle_command_complete` (lines 176-206) reads the
submitted `greeting` value, sends one message `"<greeting>, World!"` to
`session['from']`, clears `payload` and `next` and returns the session;
`_command_error` (lines 122-138) only logs, leaving the session unchanged
for the driver to terminate.  `hReturnNone` returns nothing and
`hReturnCleared` returns its session with `payload` and `next` cleared. -/
def exampleInterp : HandlerInterp ExampleHandler :=
  { step := fun h p s =>
      match h with
      | ExampleHandler.command_start =>
          { ret := some { s with
              payload := some (submitGreetingForm ((s.custom.lookup "greeting").getD "")),
              stepHandler := none },
            messages := [] }
      | ExampleHandler.handle_command =>
          { ret := some { s with
              payload := some greetingForm,
              stepHandler := some ExampleHandler.handle_command_complete,
              hasNext := false },
            messages := [] }
      | ExampleHandler.handle_command_complete =>
          { ret := some { s with payload := none, stepHandler := none },
            messages := [{ mto := s.fromAddr, mbody := formValue p "greeting" ++ ", World!" }] }
      | ExampleHandler.hReturnNone => { ret := none, messages := [] }
      | ExampleHandler.hReturnCleared =>
          { ret := some { s with payload := none, stepHandler := none }, messages := [] }
      | ExampleHandler.command_error => { ret := none, messages := [] },
    onError := fun _ _ s => s,
    onCancel := fun _ s => s }

/-- The command-line options of the script's entry point (`adhoc_user.py`
lines 225-232): `jid`, `password`, `other` (the JID providing commands) and
`greeting`, each absent until supplied. -/
structure Opts where
  jid : Option String
  password : Option String
  other : Option String
  greeting : Option String
deriving DecidableEq

/-- The values the interactive prompts would return, one per prompt of the
entry point (`adhoc_user.py` lines 240-247). -/
structure PromptInputs where
  usernameInput : String
  passwordInput : String
  otherInput : String
  greetingInput : String

/-- Embedding of the prompt-resolution block of `__main__` (`adhoc_user.py`
lines 240-247).  Line 247 reads the `"Greeting: "` prompt and assigns the
result to `opts.other`, exactly as the source does. -/
def resolveOpts (o : Opts) (inp : PromptInputs) : Opts :=
  let o1 := match o.jid with
    | none => { o with jid := some inp.usernameInput }
    | some _ => o
  let o2 := match o1.password with
    | none => { o1 with password := some inp.passwordInput }
    | some _ => o1
  let o3 := match o2.other with
    | none => { o2 with other := some inp.otherInput }
    | some _ => o2
  match o3.greeting with
  | none => { o3 with other := some inp.greetingInput }
  | some _ => o3

/-- The fields of `CommandUserBot` set by its constructor (`adhoc_user.py`
lines 36-40): the command provider JID and the greeting. -/
structure CommandUserBot where
  command_provider : Option String
  greeting : Option String
deriving DecidableEq

/-- Embedding of `CommandUserBot.__init__` (`adhoc_user.py` lines 36-40) as
called from `__main__` line 252: stores `other` and `greeting`. -/
def mkCommandUserBot (other greeting : Option String) : CommandUserBot :=
  { command_provider := other, greeting := greeting }

/-- All ids of live sessions are below the store's fresh-id counter; this is
the freshness invariant `create` establishes and preserves. -/
def idsFresh {H : Type} (st : Store H) : Prop :=
  ∀ q ∈ st.sessions, q.1 < st.nextId

/-- All live sessions are in a non-terminal state (spec section 3 invariant:
a session in `Completed`, `Errored` or `Cancelled` is removed from the
store). -/
def liveStore {H : Type} (st : Store H) : Prop :=
  ∀ q ∈ st.sessions, isTerminal (q.2).state = false

instance liveStoreDecidable {H : Type} (st : Store H) : Decidable (liveStore st) :=
  List.decidableBAll _ st.sessions

instance idsFreshDecidable {H : Type} (st : Store H) : Decidable (idsFresh st) :=
  List.decidableBAll _ st.sessions

theorem getS_removeS_self {H : Type} (l : List (Nat × CommandSession H)) (sid : Nat) :
    getS (removeS l sid) sid = none := by
  induction l with
  | nil => rfl
  | cons q rest ih =>
      by_cases hq : q.1 = sid
      · simp [removeS, hq, ih]
      · simp [removeS, hq, getS, ih]

theorem getS_updateS_self {H : Type} (l : List (Nat × CommandSession H)) (sid : Nat)
    (x : CommandSession H) (s : CommandSession H) (h : getS l sid = some s) :
    getS (updateS l sid x) sid = some x := by
  induction l with
  | nil => simp [getS] at h
  | cons q rest ih =>
      by_cases hq : q.1 = sid
      · simp [updateS, hq, getS]
      · simp [getS, hq] at h
        simp [updateS, hq, getS, ih h]

theorem removeS_updateS {H : Type} (l : List (Nat × CommandSession H)) (sid : Nat)
    (x : CommandSession H) : removeS (updateS l sid x) sid = removeS l sid := by
  induction l with
  | nil => rfl
  | cons q rest ih =>
      by_cases hq : q.1 = sid
      · simp [updateS, hq, removeS, ih]
      · simp [updateS, hq, removeS, ih]

theorem mem_removeS {H : Type} (l : List (Nat × CommandSession H)) (sid : Nat)
    (q : Nat × CommandSession H) (h : q ∈ removeS l sid) : q ∈ l := by
  induction l with
  | nil => simp [removeS] at h
  | cons r rest ih =>
      by_cases hr : r.1 = sid
      · simp [removeS, hr] at h
        exact List.mem_cons_of_mem r (ih h)
      · simp [removeS, hr] at h
        rcases h with h | h
        · exact h ▸ List.mem_cons_self r rest
        · exact List.mem_cons_of_mem r (ih h)

theorem mem_updateS {H : Type} (l : List (Nat × CommandSession H)) (sid : Nat)
    (x : CommandSession H) (q : Nat × CommandSession H) (h : q ∈ updateS l sid x) :
    q = (sid, x) ∨ q ∈ l := by
  induction l with
  | nil => simp [updateS] at h
  | cons r rest ih =>
      by_cases hr : r.1 = sid
      · simp [updateS, hr] at h
        rcases h with h | h
        · exact Or.inl h
        · rcases ih h with h2 | h2
          · exact Or.inl h2
          · exact Or.inr (List.mem_cons_of_mem r h2)
      · simp [updateS, hr] at h
        rcases h with h | h
        · exact Or.inr (h ▸ List.mem_cons_self r rest)
        · rcases ih h with h2 | h2
          · exact Or.inl h2
          · exact Or.inr (List.mem_cons_of_mem r h2)

theorem getS_fresh {H : Type} (l : List (Nat × CommandSession H)) (n : Nat)
    (h : ∀ q ∈ l, q.1 < n) : getS l n = none := by
  induction l with
  | nil => rfl
  | cons q rest ih =>
      have hq : q.1 < n := h q (List.mem_cons_self q rest)
      have hne : ¬ q.1 = n := Nat.ne_of_lt hq
      simp [getS, hne]
      exact ih (fun r hr => h r (List.mem_cons_of_mem q hr))

theorem get_remove_self {H : Type} (st : Store H) (sid : Nat) :
    Store.get (st.remove sid) sid = none :=
  getS_removeS_self st.sessions sid

theorem get_update_self {H : Type} (st : Store H) (sid : Nat) (x s : CommandSession H)
    (h : Store.get st sid = some s) : Store.get (st.update sid x) sid = some x :=
  getS_updateS_self st.sessions sid x s h

theorem remove_update {H : Type} (st : Store H) (sid : Nat) (x : CommandSession H) :
    (st.update sid x).remove sid = st.remove sid := by
  show ({ st with sessions := removeS (updateS st.sessions sid x) sid } : Store H) =
    { st with sessions := removeS st.sessions sid }
  rw [removeS_updateS]

theorem liveStore_remove {H : Type} (st : Store H) (sid : Nat) (h : liveStore st) :
    liveStore (st.remove sid) := by
  intro q hq
  exact h q (mem_removeS st.sessions sid q hq)

theorem liveStore_update {H : Type} (st : Store H) (sid : Nat) (x : CommandSession H)
    (h : liveStore st) (hx : isTerminal x.state = false) :
    liveStore (st.update sid x) := by
  intro q hq
  rcases mem_updateS st.sessions sid x q hq with h2 | h2
  · rw [h2]
    exact hx
  · exact h q h2

theorem processSuccess_spec {H : Type} (I : HandlerInterp H) (st : Store H) (sid : Nat)
    (s : CommandSession H) (p : Form) (hlive : liveStore st) :
    liveStore (processSuccess I st sid s p).store ∧
    ∀ f, (processSuccess I st sid s p).final = some f →
      (f.state = SessionState.AwaitingResponse ∨ f.state = SessionState.Completed) ∧
      (isTerminal f.state = true →
        Store.get (processSuccess I st sid s p).store sid = none) := by
  unfold processSuccess
  cases hsh : s.stepHandler with
  | none =>
      refine ⟨liveStore_remove st sid hlive, ?_⟩
      intro f hf
      simp only [Option.some.injEq] at hf
      subst hf
      exact ⟨Or.inr rfl, fun _ => get_remove_self st sid⟩
  | some h =>
      cases hs1 : (match (I.step h p s).ret with
        | some x => x
        | none => { s with payload := none, stepHandler := none }).stepHandler with
      | some h2 =>
          simp only [hs1]
          constructor
          · exact liveStore_update st sid _ hlive rfl
          · intro f hf
            simp only [Option.some.injEq] at hf
            subst hf
            exact ⟨Or.inl rfl, fun hterm => by simp [isTerminal] at hterm⟩
      | none =>
          simp only [hs1]
          refine ⟨liveStore_remove st sid hlive, ?_⟩
          intro f hf
          simp only [Option.some.injEq] at hf
          subst hf
          exact ⟨Or.inr rfl, fun _ => get_remove_self st sid⟩

theorem processFailure_spec {H : Type} (I : HandlerInterp H) (st : Store H) (sid : Nat)
    (s : CommandSession H) (e : ErrorInfo) (hlive : liveStore st) :
    liveStore (processFailure I st sid s e).store ∧
    ∀ f, (processFailure I st sid s e).final = some f →
      f.state = SessionState.Errored ∧
      Store.get (processFailure I st sid s e).store sid = none := by
  refine ⟨liveStore_remove st sid hlive, ?_⟩
  intro f hf
  simp only [processFailure, Option.some.injEq] at hf
  subst hf
  exact ⟨rfl, get_remove_self st sid⟩

theorem processCancel_spec {H : Type} (I : HandlerInterp H) (st : Store H) (sid : Nat)
    (hlive : liveStore st) :
    liveStore (processCancel I st sid).store ∧
    ∀ f, (processCancel I st sid).final = some f →
      ∃ s, Store.get st sid = some s ∧ s.state = SessionState.AwaitingResponse ∧
        f.state = SessionState.Cancelled ∧
        Store.get (processCancel I st sid).store sid = none := by
  unfold processCancel
  cases hg : Store.get st sid with
  | none => exact ⟨hlive, fun f hf => by simp [dropOutcome] at hf⟩
  | some s =>
      by_cases hAR : s.state = SessionState.AwaitingResponse
      · simp only [hAR, if_true]
        constructor
        · exact liveStore_remove st sid hlive
        · intro f hf
          simp only [Option.some.injEq] at hf
          subst hf
          exact ⟨s, rfl, hAR, rfl, get_remove_self st sid⟩
      · simp only [hAR, if_false]
        exact ⟨hlive, fun f hf => by simp [dropOutcome] at hf⟩

theorem processStart_spec {H : Type} (st : Store H) (sid : Nat) (hlive : liveStore st) :
    liveStore (processStart st sid).store ∧
    ∀ f, (processStart st sid).final = some f →
      ∃ s, Store.get st sid = some s ∧ s.state = SessionState.Pending ∧
        f.state = SessionState.AwaitingResponse := by
  unfold processStart
  cases hg : Store.get st sid with
  | none => exact ⟨hlive, fun f hf => by simp [dropOutcome] at hf⟩
  | some s =>
      by_cases hp : s.state = SessionState.Pending
      · simp only [hp, if_true]
        constructor
        · exact liveStore_update st sid _ hlive rfl
        · intro f hf
          simp only [Option.some.injEq] at hf
          subst hf
          exact ⟨s, rfl, hp, rfl⟩
      · simp only [hp, if_false]
        exact ⟨hlive, fun f hf => by simp [dropOutcome] at hf⟩

theorem processResponse_success_eq {H : Type} (I : HandlerInterp H) (st : Store H)
    (sid : Nat) (s : CommandSession H) (p : Form)
    (hget : Store.get st sid = some s)
    (hstate : s.state = SessionState.AwaitingResponse) :
    processResponse I st sid (Response.success p) = processSuccess I st sid s p := by
  unfold processResponse
  rw [hget]
  simp [hstate]

/-- A concrete session awaiting the submitted form of the `greeting`
command, with `_handle_command_complete` as its step handler, as set up by
`_handle_command` (`adhoc_user.py` line 156). -/
def exSession : CommandSession ExampleHandler :=
  { sessionId := 0, targetAddress := "responder@shakespeare.lit", node := "greeting",
    state := SessionState.AwaitingResponse,
    stepHandler := some ExampleHandler.handle_command_complete,
    errorHandler := none, cancelHandler := none, payload := none,
    hasNext := false, allowComplete := false, notes := [],
    custom := [("greeting", "Hello")], fromAddr := "user@example.com" }

/-- A store holding only `exSession` under id `0`. -/
def exStore : Store ExampleHandler :=
  { sessions := [(0, exSession)], nextId := 1 }

/-- The submitted form of the section-8 scenario: the `greeting` field holds
the value `Hi`. -/
def hiForm : Form :=
  { ftype := "submit", title := "",
    fields := [{ var := "greeting", ftype := "text-single", label := "",
                 value := some "Hi" }] }

/-- The session the step handler `_handle_command_complete` returns when
invoked on `exSession`: `payload` and `next` cleared. -/
def exCompleted : CommandSession ExampleHandler :=
  { exSession with payload := none, stepHandler := none }

/-- Claim C1: for every session in state `AwaitingResponse`, when a success
response arrives and the step handler returns a session whose `next` field
is unset, the driver transitions the session to `Completed` and removes it
from the store, so that a subsequent `get(sessionId)` returns `NotFound`. -/
theorem C1_success_next_unset_completes {H : Type} (I : HandlerInterp H) (st : Store H)
    (sid : Nat) (s r : CommandSession H) (h : H) (p : Form)
    (hget : Store.get st sid = some s)
    (hstate : s.state = SessionState.AwaitingResponse)
    (hstep : s.stepHandler = some h)
    (hret : (I.step h p s).ret = some r)
    (hnext : r.stepHandler = none) :
    ∃ f, (processResponse I st sid (Response.success p)).final = some f ∧
      f.state = SessionState.Completed ∧
      Store.get (processResponse I st sid (Response.success p)).store sid = none := by
  unfold processResponse
  rw [hget]
  simp only [hstate, if_true]
  unfold processSuccess
  rw [hstep]
  simp only [hret, hnext]
  exact ⟨_, rfl, rfl, get_remove_self st sid⟩

/-- Witness for C1 at a concrete input: `exSession`, delivered the submitted
`Hi` form, completes through `_handle_command_complete` and disappears from
the store. -/
theorem C1_success_next_unset_completes_witness :
    (Store.get exStore 0 = some exSession ∧
     exSession.state = SessionState.AwaitingResponse ∧
     exSession.stepHandler = some ExampleHandler.handle_command_complete ∧
     (exampleInterp.step ExampleHandler.handle_command_complete hiForm exSession).ret =
       some exCompleted ∧
     exCompleted.stepHandler = none) ∧
    (∃ f, (processResponse exampleInterp exStore 0 (Response.success hiForm)).final = some f ∧
      f.state = SessionState.Completed ∧
      Store.get (processResponse exampleInterp exStore 0
        (Response.success hiForm)).store 0 = none) :=
  ⟨⟨rfl, rfl, rfl, rfl, rfl⟩,
   C1_success_next_unset_completes exampleInterp exStore 0 exSession exCompleted
     ExampleHandler.handle_command_complete hiForm rfl rfl rfl rfl rfl⟩

/-- Claim C2: for every session in state `AwaitingResponse`, when an error
response arrives and no `errorHandler` was registered, the session is still
terminated and removed from the store, exactly as an error handler run would
leave it: nothing is re-raised (the cycle yields an ordinary outcome with no
sent units, no messages and no handler invocation) and the session is
silently discarded. -/
theorem C2_error_without_handler_removes {H : Type} (I : HandlerInterp H) (st : Store H)
    (sid : Nat) (s : CommandSession H) (e : ErrorInfo)
    (hget : Store.get st sid = some s)
    (hstate : s.state = SessionState.AwaitingResponse)
    (hnoh : s.errorHandler = none) :
    (processResponse I st sid (Response.failure e)).store = st.remove sid ∧
    Store.get (processResponse I st sid (Response.failure e)).store sid = none ∧
    (∃ f, (processResponse I st sid (Response.failure e)).final = some f ∧
      f.state = SessionState.Errored) ∧
    (processResponse I st sid (Response.failure e)).invoked = [] ∧
    (processResponse I st sid (Response.failure e)).sent = [] ∧
    (processResponse I st sid (Response.failure e)).messages = [] := by
  unfold processResponse
  rw [hget]
  simp only [hstate, if_true]
  unfold processFailure
  rw [hnoh]
  exact ⟨rfl, get_remove_self st sid, ⟨_, rfl, rfl⟩, rfl, rfl, rfl⟩

/-- Witness for C2 at a concrete input: `exSession` has no error handler;
an `item-not-found` error removes it silently. -/
theorem C2_error_without_handler_removes_witness :
    (Store.get exStore 0 = some exSession ∧
     exSession.state = SessionState.AwaitingResponse ∧
     exSession.errorHandler = none) ∧
    ((processResponse exampleInterp exStore 0
        (Response.failure { condition := "item-not-found", text := "" })).store =
      exStore.remove 0 ∧
     Store.get (processResponse exampleInterp exStore 0
        (Response.failure { condition := "item-not-found", text := "" })).store 0 = none ∧
     (∃ f, (processResponse exampleInterp exStore 0
        (Response.failure { condition := "item-not-found", text := "" })).final = some f ∧
       f.state = SessionState.Errored) ∧
     (processResponse exampleInterp exStore 0
        (Response.failure { condition := "item-not-found", text := "" })).invoked = [] ∧
     (processResponse exampleInterp exStore 0
        (Response.failure { condition := "item-not-found", text := "" })).sent = [] ∧
     (processResponse exampleInterp exStore 0
        (Response.failure { condition := "item-not-found", text := "" })).messages = []) :=
  ⟨⟨rfl, rfl, rfl⟩,
   C2_error_without_handler_removes exampleInterp exStore 0 exSession
     { condition := "item-not-found", text := "" } rfl rfl rfl⟩

/-- Claim C3: for every session and every success response, a step handler
that returns nothing produces exactly the same subsequent driver behaviour —
state transition (`final`), store contents, outgoing protocol units and
handler bookkeeping — as a step handler that returns the session object with
its `payload` and `next` fields cleared: both signal completion. -/
theorem C3_return_none_equiv_cleared {H : Type} (I : HandlerInterp H) (st : Store H)
    (sid : Nat) (s : CommandSession H) (h1 h2 : H) (p : Form)
    (hget : Store.get st sid = some s)
    (hstate : s.state = SessionState.AwaitingResponse)
    (h1ret : (I.step h1 p { s with stepHandler := some h1 }).ret = none)
    (h2ret : (I.step h2 p { s with stepHandler := some h2 }).ret =
      some { s with payload := none, stepHandler := none }) :
    (processResponse I (st.update sid { s with stepHandler := some h1 }) sid
        (Response.success p)).store =
      (processResponse I (st.update sid { s with stepHandler := some h2 }) sid
        (Response.success p)).store ∧
    (processResponse I (st.update sid { s with stepHandler := some h1 }) sid
        (Response.success p)).final =
      (processResponse I (st.update sid { s with stepHandler := some h2 }) sid
        (Response.success p)).final ∧
    (processResponse I (st.update sid { s with stepHandler := some h1 }) sid
        (Response.success p)).sent =
      (processResponse I (st.update sid { s with stepHandler := some h2 }) sid
        (Response.success p)).sent ∧
    (processResponse I (st.update sid { s with stepHandler := some h1 }) sid
        (Response.success p)).invoked =
      (processResponse I (st.update sid { s with stepHandler := some h2 }) sid
        (Response.success p)).invoked := by
  have g1 := get_update_self st sid { s with stepHandler := some h1 } s hget
  have g2 := get_update_self st sid { s with stepHandler := some h2 } s hget
  rw [processResponse_success_eq I (st.update sid { s with stepHandler := some h1 }) sid
        { s with stepHandler := some h1 } p g1 hstate,
      processResponse_success_eq I (st.update sid { s with stepHandler := some h2 }) sid
        { s with stepHandler := some h2 } p g2 hstate]
  unfold processSuccess
  simp only [h1ret, h2ret]
  refine ⟨?_, ?_, ?_, ?_⟩
  · rw [remove_update, remove_update]
  · trivial
  · trivial
  · trivial

/-- Witness for C3 at a concrete input: on `exSession`, the handler handle
`hReturnNone` and the handle `hReturnCleared` lead to identical driver
outcomes. -/
theorem C3_return_none_equiv_cleared_witness :
    (Store.get exStore 0 = some exSession ∧
     exSession.state = SessionState.AwaitingResponse ∧
     (exampleInterp.step ExampleHandler.hReturnNone hiForm
        { exSession with stepHandler := some ExampleHandler.hReturnNone }).ret = none ∧
     (exampleInterp.step ExampleHandler.hReturnCleared hiForm
        { exSession with stepHandler := some ExampleHandler.hReturnCleared }).ret =
       some { exSession with payload := none, stepHandler := none }) ∧
    ((processResponse exampleInterp
        (exStore.update 0 { exSession with stepHandler := some ExampleHandler.hReturnNone })
        0 (Response.success hiForm)).store =
      (processResponse exampleInterp
        (exStore.update 0 { exSession with stepHandler := some ExampleHandler.hReturnCleared })
        0 (Response.success hiForm)).store ∧
     (processResponse exampleInterp
        (exStore.update 0 { exSession with stepHandler := some ExampleHandler.hReturnNone })
        0 (Response.success hiForm)).final =
      (processResponse exampleInterp
        (exStore.update 0 { exSession with stepHandler := some ExampleHandler.hReturnCleared })
        0 (Response.success hiForm)).final ∧
     (processResponse exampleInterp
        (exStore.update 0 { exSession with stepHandler := some ExampleHandler.hReturnNone })
        0 (Response.success hiForm)).sent =
      (processResponse exampleInterp
        (exStore.update 0 { exSession with stepHandler := some ExampleHandler.hReturnCleared })
        0 (Response.success hiForm)).sent ∧
     (processResponse exampleInterp
        (exStore.update 0 { exSession with stepHandler := some ExampleHandler.hReturnNone })
        0 (Response.success hiForm)).invoked =
      (processResponse exampleInterp
        (exStore.update 0 { exSession with stepHandler := some ExampleHandler.hReturnCleared })
        0 (Response.success hiForm)).invoked) :=
  ⟨⟨rfl, rfl, rfl, rfl⟩,
   C3_return_none_equiv_cleared exampleInterp exStore 0 exSession
     ExampleHandler.hReturnNone ExampleHandler.hReturnCleared hiForm rfl rfl rfl rfl⟩

/-- Claim C4: for every session whose step handler returns with
`hasNext = false` while `next` is set, the driver continues the session —
it sends the next request, keeps the session in the store in state
`AwaitingResponse` — rather than completing it: `next` alone determines
continuation and the `hasNext` flag plays no part in the transition. -/
theorem C4_next_field_wins {H : Type} (I : HandlerInterp H) (st : Store H) (sid : Nat)
    (s r : CommandSession H) (h h2 : H) (p : Form)
    (hget : Store.get st sid = some s)
    (hstate : s.state = SessionState.AwaitingResponse)
    (hstep : s.stepHandler = some h)
    (hret : (I.step h p s).ret = some r)
    (hnext : r.stepHandler = some h2)
    (hHasNextFalse : r.hasNext = false) :
    ∃ f, (processResponse I st sid (Response.success p)).final = some f ∧
      f.state = SessionState.AwaitingResponse ∧
      Store.get (processResponse I st sid (Response.success p)).store sid = some f ∧
      (processResponse I st sid (Response.success p)).sent =
        [{ target := s.targetAddress, sessionId := sid, node := s.node,
           payload := r.payload }] := by
  unfold processResponse
  rw [hget]
  simp only [hstate, if_true]
  unfold processSuccess
  rw [hstep]
  simp only [hret, hnext]
  exact ⟨_, rfl, rfl, get_update_self st sid _ s hget, trivial⟩

/-- The session `_handle_command` drives: its step handler is
`_handle_command_complete` only after the handler runs; before that the
stored step handler is `_handle_command` itself. -/
def exSessionHC : CommandSession ExampleHandler :=
  { exSession with stepHandler := some ExampleHandler.handle_command }

/-- A store holding only `exSessionHC` under id `0`. -/
def exStoreHC : Store ExampleHandler :=
  { sessions := [(0, exSessionHC)], nextId := 1 }

/-- The session `_handle_command` returns (`adhoc_user.py` lines 155-157 and
174): payload set to the greeting form, `next` set to
`_handle_command_complete`, `has_next` set to `False`. -/
def exContinued : CommandSession ExampleHandler :=
  { exSessionHC with
    payload := some greetingForm,
    stepHandler := some ExampleHandler.handle_command_complete,
    hasNext := false }

/-- Witness for C4 at a concrete input: `_handle_command` returns a session
with `has_next = False` and `next` set (`adhoc_user.py` lines 155-157); the
driver continues the session. -/
theorem C4_next_field_wins_witness :
    (Store.get exStoreHC 0 = some exSessionHC ∧
     exSessionHC.state = SessionState.AwaitingResponse ∧
     exSessionHC.stepHandler = some ExampleHandler.handle_command ∧
     (exampleInterp.step ExampleHandler.handle_command hiForm exSessionHC).ret =
       some exContinued ∧
     exContinued.stepHandler = some ExampleHandler.handle_command_complete ∧
     exContinued.hasNext = false) ∧
    (∃ f, (processResponse exampleInterp exStoreHC 0 (Response.success hiForm)).final =
        some f ∧
      f.state = SessionState.AwaitingResponse ∧
      Store.get (processResponse exampleInterp exStoreHC 0
        (Response.success hiForm)).store 0 = some f ∧
      (processResponse exampleInterp exStoreHC 0 (Response.success hiForm)).sent =
        [{ target := exSessionHC.targetAddress, sessionId := 0, node := exSessionHC.node,
           payload := exContinued.payload }]) :=
  ⟨⟨rfl, rfl, rfl, rfl, rfl, rfl⟩,
   C4_next_field_wins exampleInterp exStoreHC 0 exSessionHC exContinued
     ExampleHandler.handle_command ExampleHandler.handle_command_complete hiForm
     rfl rfl rfl rfl rfl rfl⟩

/-- Claim C5: for every reachable session, `state` only changes along the
edges of section 4.2 (`Pending` to `AwaitingResponse`; `AwaitingResponse` to
itself, `Completed`, `Errored` or `Cancelled`), no edge ever targets
`Pending` again, and a session that enters a terminal state is removed from
the store in the same step; stores holding only non-terminal sessions stay
that way, so terminal sessions are never observable in the store. -/
theorem C5_state_machine_invariant {H : Type} (I : HandlerInterp H) (st : Store H)
    (i : Input) (hlive : liveStore st) :
    liveStore (stepDriver I st i).store ∧
    (∀ f, (stepDriver I st i).final = some f →
      ∃ s, Store.get st i.sid = some s ∧ allowedEdge s.state f.state = true ∧
        (isTerminal f.state = true →
          Store.get (stepDriver I st i).store i.sid = none)) ∧
    (∀ a b, allowedEdge a b = true → b ≠ SessionState.Pending) := by
  cases i with
  | start sid =>
      obtain ⟨hl, hf⟩ := processStart_spec st sid hlive
      refine ⟨hl, ?_, by decide⟩
      intro f hfin
      obtain ⟨s, hg, hp, hfa⟩ := hf f hfin
      refine ⟨s, hg, ?_, ?_⟩
      · rw [hp, hfa]
        rfl
      · intro hterm
        rw [hfa] at hterm
        simp [isTerminal] at hterm
  | response sid r =>
      simp only [stepDriver, Input.sid]
      unfold processResponse
      cases hg : Store.get st sid with
      | none =>
          exact ⟨hlive, fun f hfin => by simp [dropOutcome] at hfin, by decide⟩
      | some s =>
          by_cases hAR : s.state = SessionState.AwaitingResponse
          · simp only [hAR, if_true]
            cases r with
            | success p =>
                obtain ⟨hl, hf⟩ := processSuccess_spec I st sid s p hlive
                refine ⟨hl, ?_, by decide⟩
                intro f hfin
                obtain ⟨hst, hrem⟩ := hf f hfin
                refine ⟨s, rfl, ?_, hrem⟩
                rcases hst with h1 | h1
                · rw [hAR, h1]
                  rfl
                · rw [hAR, h1]
                  rfl
            | failure e =>
                obtain ⟨hl, hf⟩ := processFailure_spec I st sid s e hlive
                refine ⟨hl, ?_, by decide⟩
                intro f hfin
                obtain ⟨hst, hrem⟩ := hf f hfin
                refine ⟨s, rfl, ?_, fun _ => hrem⟩
                rw [hAR, hst]
                rfl
          · simp only [hAR, if_false]
            exact ⟨hlive, fun f hfin => by simp [dropOutcome] at hfin, by decide⟩
  | cancel sid =>
      obtain ⟨hl, hf⟩ := processCancel_spec I st sid hlive
      refine ⟨hl, ?_, by decide⟩
      intro f hfin
      obtain ⟨s, hg, hAR, hfc, hrem⟩ := hf f hfin
      refine ⟨s, hg, ?_, fun _ => hrem⟩
      rw [hAR, hfc]
      rfl

/-- Witness for C5 at a concrete input: the `exStore` store holds only
non-terminal sessions, and delivering the `Hi` success response to session
`0` satisfies the transition invariant. -/
theorem C5_state_machine_invariant_witness :
    liveStore exStore ∧
    (liveStore (stepDriver exampleInterp exStore
        (Input.response 0 (Response.success hiForm))).store ∧
     (∀ f, (stepDriver exampleInterp exStore
          (Input.response 0 (Response.success hiForm))).final = some f →
       ∃ s, Store.get exStore (Input.sid (Input.response 0 (Response.success hiForm))) =
           some s ∧ allowedEdge s.state f.state = true ∧
         (isTerminal f.state = true →
           Store.get (stepDriver exampleInterp exStore
             (Input.response 0 (Response.success hiForm))).store
             (Input.sid (Input.response 0 (Response.success hiForm))) = none)) ∧
     (∀ a b, allowedEdge a b = true → b ≠ SessionState.Pending)) :=
  ⟨by decide,
   C5_state_machine_invariant exampleInterp exStore
     (Input.response 0 (Response.success hiForm)) (by decide)⟩

/-- Claim C6: a session for node `greeting` that receives a success response
whose form carries the value `Hi` for the `greeting` field, with
`_handle_command_complete` as its step handler (which returns with `next`
set to `None`), completes and is removed, and exactly one outgoing message
is sent, to the session's `from` address, whose body is `Hi, World!` (the
submitted greeting with `, World!` appended). -/
theorem C6_greeting_scenario :
    exSession.node = "greeting" ∧
    (processResponse exampleInterp exStore 0 (Response.success hiForm)).messages =
      [{ mto := "user@example.com", mbody := "Hi, World!" }] ∧
    (∃ f, (processResponse exampleInterp exStore 0 (Response.success hiForm)).final =
        some f ∧ f.state = SessionState.Completed) ∧
    Store.get (processResponse exampleInterp exStore 0
      (Response.success hiForm)).store 0 = none := by
  refine ⟨rfl, ?_, ⟨_, rfl, rfl⟩, rfl⟩
  show [({ mto := exSession.fromAddr,
           mbody := formValue hiForm "greeting" ++ ", World!" } : Message)] = _
  simp [formValue, formValue.go, hiForm, exSession]

/-- Claim C7: for every session in `AwaitingResponse`, an explicit cancel
transitions the session directly to `Cancelled`, invokes the `cancelHandler`
when one is present, and removes the session; any response arriving
afterwards for the stale session id is discarded outright — the store is
unchanged and no handler is invoked. -/
theorem C7_cancel_then_stale_discarded {H : Type} (I : HandlerInterp H) (st : Store H)
    (sid : Nat) (s : CommandSession H)
    (hget : Store.get st sid = some s)
    (hstate : s.state = SessionState.AwaitingResponse) :
    (∃ f, (processCancel I st sid).final = some f ∧
      f.state = SessionState.Cancelled) ∧
    (∀ c, s.cancelHandler = some c →
      (processCancel I st sid).invoked = [Invoked.cancelH]) ∧
    Store.get (processCancel I st sid).store sid = none ∧
    (∀ resp, processResponse I (processCancel I st sid).store sid resp =
      dropOutcome (processCancel I st sid).store) := by
  unfold processCancel
  rw [hget]
  simp only [hstate, if_true]
  refine ⟨⟨_, rfl, rfl⟩, ?_, get_remove_self st sid, ?_⟩
  · intro c hc
    rw [hc]
  · intro resp
    unfold processResponse
    rw [get_remove_self st sid]

/-- A session awaiting a response with a cancel handler registered
(`session['cancel'] = handler`, `adhoc_user.py` line 167). -/
def exSessionCancel : CommandSession ExampleHandler :=
  { exSession with cancelHandler := some ExampleHandler.command_error }

/-- A store holding only `exSessionCancel` under id `0`. -/
def exStoreCancel : Store ExampleHandler :=
  { sessions := [(0, exSessionCancel)], nextId := 1 }

/-- Witness for C7 at a concrete input: cancelling `exSessionCancel` invokes
its cancel handler, removes it, and a stale success response afterwards is
dropped. -/
theorem C7_cancel_then_stale_discarded_witness :
    (Store.get exStoreCancel 0 = some exSessionCancel ∧
     exSessionCancel.state = SessionState.AwaitingResponse) ∧
    ((∃ f, (processCancel exampleInterp exStoreCancel 0).final = some f ∧
       f.state = SessionState.Cancelled) ∧
     (∀ c, exSessionCancel.cancelHandler = some c →
       (processCancel exampleInterp exStoreCancel 0).invoked = [Invoked.cancelH]) ∧
     Store.get (processCancel exampleInterp exStoreCancel 0).store 0 = none ∧
     (∀ resp, processResponse exampleInterp
        (processCancel exampleInterp exStoreCancel 0).store 0 resp =
       dropOutcome (processCancel exampleInterp exStoreCancel 0).store)) :=
  ⟨⟨rfl, rfl⟩,
   C7_cancel_then_stale_discarded exampleInterp exStoreCancel 0 exSessionCancel rfl rfl⟩

/-- The session a valid `create` call stores (spec section 4.1): `Pending`,
the supplied handlers and custom data, id taken from the fresh-id counter. -/
def createdSession {H : Type} (st : Store H) (node target : String)
    (hs : InitialHandlers H) (cust : List (String × String)) : CommandSession H :=
  { sessionId := st.nextId, targetAddress := target, node := node,
    state := SessionState.Pending, stepHandler := hs.step,
    errorHandler := hs.onError, cancelHandler := hs.onCancel,
    payload := none, hasNext := false, allowComplete := false,
    notes := [], custom := cust, fromAddr := "" }

/-- The store a valid `create` call produces: the new `Pending` session is
prepended and the fresh-id counter advanced. -/
def createdStore {H : Type} (st : Store H) (node target : String)
    (hs : InitialHandlers H) (cust : List (String × String)) : Store H :=
  { sessions := (st.nextId, createdSession st node target hs cust) :: st.sessions,
    nextId := st.nextId + 1 }

/-- Claim C8: for every valid `create` call (non-empty node and target
address) on a store whose live ids are all below the fresh-id counter, the
returned session id is fresh — absent from the store before the call — and
the new session is stored in state `Pending`, with the freshness invariant
re-established. -/
theorem C8_create_fresh_pending {H : Type} (st : Store H) (node target : String)
    (hs : InitialHandlers H) (cust : List (String × String))
    (hn : node ≠ "") (ht : target ≠ "") (hfresh : idsFresh st) :
    ∃ st2 sid, Store.create st node target hs cust = Except.ok (st2, sid) ∧
      Store.get st sid = none ∧
      (∃ ns, Store.get st2 sid = some ns ∧ ns.state = SessionState.Pending) ∧
      idsFresh st2 := by
  have hc : Store.create st node target hs cust =
      Except.ok (createdStore st node target hs cust, st.nextId) := by
    unfold Store.create createdStore createdSession
    rw [if_neg hn, if_neg ht]
  refine ⟨_, st.nextId, hc, getS_fresh st.sessions st.nextId hfresh,
    ⟨createdSession st node target hs cust, ?_, rfl⟩, ?_⟩
  · show getS ((st.nextId, createdSession st node target hs cust) :: st.sessions)
      st.nextId = _
    simp [getS]
  · intro q hq
    rcases List.mem_cons.mp hq with h | h
    · rw [h]
      exact Nat.lt_succ_self st.nextId
    · exact Nat.lt_succ_of_lt (hfresh q h)

/-- Witness for C8 at a concrete input: creating a `greeting` session
against `exStore` (whose one live id `0` is below `nextId = 1`) yields the
fresh id `1` and a stored `Pending` session. -/
theorem C8_create_fresh_pending_witness :
    ("greeting" ≠ "" ∧ ("responder@shakespeare.lit" : String) ≠ "" ∧ idsFresh exStore) ∧
    (∃ st2 sid, Store.create exStore "greeting" "responder@shakespeare.lit"
        { step := some ExampleHandler.command_start,
          onError := some ExampleHandler.command_error, onCancel := none }
        [("greeting", "Hello")] = Except.ok (st2, sid) ∧
      Store.get exStore sid = none ∧
      (∃ ns, Store.get st2 sid = some ns ∧ ns.state = SessionState.Pending) ∧
      idsFresh st2) :=
  ⟨⟨by decide, by decide, by decide⟩,
   C8_create_fresh_pending exStore "greeting" "responder@shakespeare.lit"
     { step := some ExampleHandler.command_start,
       onError := some ExampleHandler.command_error, onCancel := none }
     [("greeting", "Hello")] (by decide) (by decide) (by decide)⟩

/-- Claim C9: for every session and every driver step (start, success
response, error response or cancel), the caller-defined `custom` mapping is
left unchanged by the driver: provided the session's own handlers preserve
`custom` (the driver cannot control what a handler writes into its mutable
view), the affected session's final value and any value still stored under
the session's id carry exactly the `custom` mapping the session had before
the step, so a key set at creation stays readable with the same value in
every later handler invocation. -/
theorem C9_custom_preserved {H : Type} (I : HandlerInterp H) (st : Store H) (i : Input)
    (s : CommandSession H)
    (hget : Store.get st i.sid = some s)
    (hstep : ∀ h p r, s.stepHandler = some h → (I.step h p s).ret = some r →
      r.custom = s.custom)
    (herr : ∀ h e, s.errorHandler = some h → (I.onError h e s).custom = s.custom)
    (hcan : ∀ h, s.cancelHandler = some h → (I.onCancel h s).custom = s.custom) :
    (∀ f, (stepDriver I st i).final = some f → f.custom = s.custom) ∧
    (∀ f, Store.get (stepDriver I st i).store i.sid = some f →
      f.custom = s.custom) := by
  cases i with
  | start sid =>
      simp only [Input.sid] at hget
      simp only [stepDriver, Input.sid]
      unfold processStart
      rw [hget]
      by_cases hp : s.state = SessionState.Pending
      · simp only [hp, if_true]
        constructor
        · intro f hf
          simp only [Option.some.injEq] at hf
          subst hf
          rfl
        · intro f hf
          rw [get_update_self st sid _ s hget] at hf
          simp only [Option.some.injEq] at hf
          subst hf
          rfl
      · simp only [hp, if_false]
        constructor
        · intro f hf
          simp [dropOutcome] at hf
        · intro f hf
          simp only [dropOutcome] at hf
          rw [hget] at hf
          simp only [Option.some.injEq] at hf
          subst hf
          rfl
  | response sid r =>
      simp only [Input.sid] at hget
      simp only [stepDriver, Input.sid]
      unfold processResponse
      rw [hget]
      by_cases hAR : s.state = SessionState.AwaitingResponse
      · simp only [hAR, if_true]
        cases r with
        | success p =>
            unfold processSuccess
            cases hsh : s.stepHandler with
            | none =>
                constructor
                · intro f hf
                  simp only [Option.some.injEq] at hf
                  subst hf
                  rfl
                · intro f hf
                  rw [get_remove_self st sid] at hf
                  cases hf
            | some h =>
                cases hr : (I.step h p s).ret with
                | none =>
                    simp only [hr]
                    constructor
                    · intro f hf
                      simp only [Option.some.injEq] at hf
                      subst hf
                      rfl
                    · intro f hf
                      rw [get_remove_self st sid] at hf
                      cases hf
                | some rr =>
                    have hcust : rr.custom = s.custom := hstep h p rr hsh hr
                    simp only [hr]
                    cases hs1 : rr.stepHandler with
                    | some h2 =>
                        simp only [hs1]
                        constructor
                        · intro f hf
                          simp only [Option.some.injEq] at hf
                          subst hf
                          exact hcust
                        · intro f hf
                          rw [get_update_self st sid _ s hget] at hf
                          simp only [Option.some.injEq] at hf
                          subst hf
                          exact hcust
                    | none =>
                        simp only [hs1]
                        constructor
                        · intro f hf
                          simp only [Option.some.injEq] at hf
                          subst hf
                          exact hcust
                        · intro f hf
                          rw [get_remove_self st sid] at hf
                          cases hf
        | failure e =>
            unfold processFailure
            cases heh : s.errorHandler with
            | none =>
                constructor
                · intro f hf
                  simp only [Option.some.injEq] at hf
                  subst hf
                  rfl
                · intro f hf
                  rw [get_remove_self st sid] at hf
                  cases hf
            | some h =>
                have hcust := herr h e heh
                constructor
                · intro f hf
                  simp only [Option.some.injEq] at hf
                  subst hf
                  exact hcust
                · intro f hf
                  rw [get_remove_self st sid] at hf
                  cases hf
      · simp only [hAR, if_false]
        constructor
        · intro f hf
          simp [dropOutcome] at hf
        · intro f hf
          simp only [dropOutcome] at hf
          rw [hget] at hf
          simp only [Option.some.injEq] at hf
          subst hf
          rfl
  | cancel sid =>
      simp only [Input.sid] at hget
      simp only [stepDriver, Input.sid]
      unfold processCancel
      rw [hget]
      by_cases hAR : s.state = SessionState.AwaitingResponse
      · simp only [hAR, if_true]
        cases hch : s.cancelHandler with
        | none =>
            constructor
            · intro f hf
              simp only [Option.some.injEq] at hf
              subst hf
              rfl
            · intro f hf
              rw [get_remove_self st sid] at hf
              cases hf
        | some c =>
            have hcust := hcan c hch
            constructor
            · intro f hf
              simp only [Option.some.injEq] at hf
              subst hf
              exact hcust
            · intro f hf
              rw [get_remove_self st sid] at hf
              cases hf
      · simp only [hAR, if_false]
        constructor
        · intro f hf
          simp [dropOutcome] at hf
        · intro f hf
          simp only [dropOutcome] at hf
          rw [hget] at hf
          simp only [Option.some.injEq] at hf
          subst hf
          rfl

/-- A session with only a cancel handler registered, carrying the
creation-time custom entry `greeting = Hello`. -/
def exSessionC9 : CommandSession ExampleHandler :=
  { exSession with
    stepHandler := none,
    cancelHandler := some ExampleHandler.command_error }

/-- A store holding only `exSessionC9` under id `0`. -/
def exStoreC9 : Store ExampleHandler :=
  { sessions := [(0, exSessionC9)], nextId := 1 }

/-- Witness for C9 at a concrete input: a local cancel of `exSessionC9`
(whose cancel handler leaves the session untouched) keeps its
`greeting = Hello` custom entry in the final session value. -/
theorem C9_custom_preserved_witness :
    Store.get exStoreC9 (Input.cancel 0).sid = some exSessionC9 ∧
    ((∀ f, (stepDriver exampleInterp exStoreC9 (Input.cancel 0)).final = some f →
       f.custom = exSessionC9.custom) ∧
     (∀ f, Store.get (stepDriver exampleInterp exStoreC9 (Input.cancel 0)).store
         (Input.cancel 0).sid = some f → f.custom = exSessionC9.custom)) :=
  ⟨rfl,
   C9_custom_preserved exampleInterp exStoreC9 (Input.cancel 0) exSessionC9 rfl
     (fun _ _ _ hh _ => nomatch hh)
     (fun _ _ hh => nomatch hh)
     (fun _ _ => rfl)⟩

/-- Claim C10: in the script's command-line entry point, when the
`--greeting` option is absent the value read from the `"Greeting: "` prompt
is assigned to `opts.other` — overwriting the command-provider JID — rather
than to `opts.greeting`, so `opts.greeting` remains `None` and the bot is
constructed with a `None` greeting. -/
theorem C10_greeting_prompt_overwrites_other (o : Opts) (inp : PromptInputs)
    (hg : o.greeting = none) :
    (resolveOpts o inp).greeting = none ∧
    (resolveOpts o inp).other = some inp.greetingInput ∧
    (mkCommandUserBot (resolveOpts o inp).other
      (resolveOpts o inp).greeting).greeting = none := by
  obtain ⟨j, pw, ot, gr⟩ := o
  cases gr with
  | some g => exact absurd hg (by simp)
  | none =>
      cases j <;> cases pw <;> cases ot <;>
        simp [resolveOpts, mkCommandUserBot]

/-- Witness for C10 at a concrete input: with `--jid`, `--password` and
`--other` supplied but `--greeting` absent, the prompt value `Hi` lands in
`opts.other` and the bot's greeting is `None`. -/
theorem C10_greeting_prompt_overwrites_other_witness :
    (({ jid := some "user@example.com", password := some "hunter2",
        other := some "responder@shakespeare.lit", greeting := none } : Opts).greeting =
      none) ∧
    ((resolveOpts
        { jid := some "user@example.com", password := some "hunter2",
          other := some "responder@shakespeare.lit", greeting := none }
        { usernameInput := "", passwordInput := "", otherInput := "",
          greetingInput := "Hi" }).greeting = none ∧
     (resolveOpts
        { jid := some "user@example.com", password := some "hunter2",
          other := some "responder@shakespeare.lit", greeting := none }
        { usernameInput := "", passwordInput := "", otherInput := "",
          greetingInput := "Hi" }).other = some "Hi" ∧
     (mkCommandUserBot
        (resolveOpts
          { jid := some "user@example.com", password := some "hunter2",
            other := some "responder@shakespeare.lit", greeting := none }
          { usernameInput := "", passwordInput := "", otherInput := "",
            greetingInput := "Hi" }).other
        (resolveOpts
          { jid := some "user@example.com", password := some "hunter2",
            other := some "responder@shakespeare.lit", greeting := none }
          { usernameInput := "", passwordInput := "", otherInput := "",
            greetingInput := "Hi" }).greeting).greeting = none) :=
  ⟨rfl,
   C10_greeting_prompt_overwrites_other
     { jid := some "user@example.com", password := some "hunter2",
       other := some "responder@shakespeare.lit", greeting := none }
     { usernameInput := "", passwordInput := "", otherInput := "",
       greetingInput := "Hi" } rfl⟩

end Adhoc
